import Mathlib

/-!
Verification of the request/response observability logger of
johnweldon/middleware.go against its natural-language specification.

The embedding below follows the most evolved variant of the logger
(the file with the shared `coreLogger` supporting both the server-side
`Handler` and the client-side `RoundTripLogger`), which is the variant the
specification describes.  Where an older variant of the same component
differs in a way a claim depends on (the legacy `responseLogger` that calls
`log.Fatalf` on a body-read failure), that older variant is embedded
separately under a `Legacy`-suffixed name.

Modelling conventions:
- Go `http.Header` (a `map[string][]string`) is an association list
  `List (String × List String)` with unique keys; map writes are functional
  updates.  Go aliasing (helpers mutating a shared header map in place) is
  made explicit by returning the final state of the collection.
- Go `io.ReadCloser` bodies are `BodyStream`: in-memory contents plus a
  consumed flag; reading a consumed stream yields the empty string, exactly
  as reading an exhausted `bytes.Reader` does.  In-memory reads cannot fail;
  where a claim is about error branches of the code the read outcome is an
  explicit `Except` parameter.
- Go template rendering is unfolded: each template constant of the source
  becomes a Lean function producing the exact rendered string, with the
  `headers` / `dump` / `status` helper functions embedded from
  `parseTemplate`.  Go map iteration order is unspecified; the embedding
  renders header lines in association-list order, which is harmless for the
  properties proved here (they are order-insensitive).
-/

namespace Middleware

/-- The `DetailLevel` enumeration of the source: none, minimal, normal,
verbose, debug. -/
inductive DetailLevel where
  | NoneLevel
  | MinimalLevel
  | NormalLevel
  | VerboseLevel
  | DebugLevel
deriving DecidableEq, Repr

open DetailLevel

/-- Go `http.Header`: a map from header name to list of values, embedded as
an association list with unique keys. -/
abbrev Header : Type := List (String × List String)

/-- Lookup of a header key (Go `h[k]` on the map): first matching entry. -/
def getHeader (h : Header) (k : String) : Option (List String) :=
  match h with
  | [] => none
  | (k0, v0) :: rest => if k0 = k then some v0 else getHeader rest k

/-- Map write `h[k] = v`: replaces the value of an existing key in place,
or appends the binding when the key is absent. -/
def setHeader (h : Header) (k : String) (v : List String) : Header :=
  match h with
  | [] => [(k, v)]
  | (k0, v0) :: rest =>
      if k0 = k then (k0, v) :: rest else (k0, v0) :: setHeader rest k v

/-- Go `h.Get k`: the first value of the key, or the empty string. -/
def headerGet (h : Header) (k : String) : String :=
  match getHeader h k with
  | some (v :: _) => v
  | _ => ""

/-- The `details` map of the source: canonical lowercase name of each
level.  The source map contains every level, so the lookup is total. -/
def details : DetailLevel → String
  | NoneLevel => "none"
  | MinimalLevel => "minimal"
  | NormalLevel => "normal"
  | VerboseLevel => "verbose"
  | DebugLevel => "debug"

/-- The `levels` map of the source: name to level, `none` on a miss. -/
def levels (s : String) : Option DetailLevel :=
  if s = "none" then some NoneLevel
  else if s = "minimal" then some MinimalLevel
  else if s = "normal" then some NormalLevel
  else if s = "verbose" then some VerboseLevel
  else if s = "debug" then some DebugLevel
  else none

/-- `LevelText` of the source: the name of the given level via the
`details` map (every level is present, so the `ok` branch always fires;
the empty-string fallback is unreachable). -/
def LevelText (level : DetailLevel) : String :=
  details level

/-- Modelled from Go `strings.ToLower`, restricted to the ASCII lowering
relevant to the level names: lowercase each character. -/
def toLowerStr (s : String) : String :=
  ⟨s.data.map Char.toLower⟩

/-- `TextLevel` of the source: lowercase the name, look it up in the
`levels` map, and fall back to `NoneLevel` when it is not found. -/
def TextLevel (level : String) : DetailLevel :=
  match levels (toLowerStr level) with
  | some l => l
  | none => NoneLevel

/-- C4: for every detail level, name → level round-trips and the name is
already in canonical lowercase spelling; every string whose lowercase form
is not the name of any level is mapped to the `none` level by `TextLevel`. -/
theorem levelText_textLevel_roundtrip :
    (∀ l : DetailLevel,
        TextLevel (LevelText l) = l ∧ toLowerStr (LevelText l) = LevelText l) ∧
    (∀ s : String, (∀ l : DetailLevel, LevelText l ≠ toLowerStr s) →
        TextLevel s = NoneLevel) := by
  constructor
  · intro l
    cases l <;> exact ⟨by decide, by decide⟩
  · intro s h
    have hn : toLowerStr s ≠ "none" := fun hc => h NoneLevel (by exact hc.symm)
    have hm : toLowerStr s ≠ "minimal" := fun hc => h MinimalLevel (by exact hc.symm)
    have ho : toLowerStr s ≠ "normal" := fun hc => h NormalLevel (by exact hc.symm)
    have hv : toLowerStr s ≠ "verbose" := fun hc => h VerboseLevel (by exact hc.symm)
    have hd : toLowerStr s ≠ "debug" := fun hc => h DebugLevel (by exact hc.symm)
    unfold TextLevel levels
    rw [if_neg hn, if_neg hm, if_neg ho, if_neg hv, if_neg hd]

/-- C4 witness: the round trip at a concrete level and an unrecognized
concrete name. -/
theorem levelText_textLevel_roundtrip_witness :
    TextLevel (LevelText DetailLevel.VerboseLevel) = DetailLevel.VerboseLevel ∧
    TextLevel "bogus" = DetailLevel.NoneLevel := by
  constructor
  · exact (levelText_textLevel_roundtrip.1 DetailLevel.VerboseLevel).1
  · exact levelText_textLevel_roundtrip.2 "bogus" (by intro l; cases l <;> decide)

/-- An in-memory body reader (Go `io.ReadCloser` over a `bytes.Reader`):
contents plus a consumed flag.  A fresh reader is unconsumed; reading it
yields the full contents and leaves it exhausted. -/
structure BodyStream where
  contents : String
  consumed : Bool
deriving DecidableEq, Repr

/-- `ioutil.ReadAll` on an in-memory reader: the full contents on first
read, the empty string once exhausted.  Such reads cannot fail. -/
def readAll (s : BodyStream) : String × BodyStream :=
  if s.consumed then ("", s) else (s.contents, ⟨s.contents, true⟩)

/-- The parts of Go `http.Request` the logger touches: host, method, URL
path, headers, optional body. -/
structure Request where
  host : String
  method : String
  path : String
  header : Header
  body : Option BodyStream
deriving DecidableEq, Repr

/-- The parts of Go `http.Response` the round-trip logger touches. -/
structure Response where
  statusCode : Nat
  header : Header
  body : BodyStream
deriving DecidableEq, Repr

/-- `RedactedHeaders` of the source: headers redacted at every level except
debug. -/
def RedactedHeaders : List String := ["Authorization", "Cookie"]

/-- The `redactHeaders` table of the source: redaction set per level
(`debug` redacts nothing). -/
def redactHeaders : DetailLevel → List String
  | DebugLevel => []
  | _ => RedactedHeaders

/-- The in-place loop of the closure `redactedHeaders` in `parseTemplate`:
for each name in the redaction set that is present, overwrite its value
with the `[redacted]` placeholder.  The result is the final state of the
mutated collection (Go mutates the shared map of the caller through the
reference); the pre-mutation clone `orig` is the unchanged input itself. -/
def applyRedactions (keys : List String) (h : Header) : Header :=
  match keys with
  | [] => h
  | k :: rest =>
      applyRedactions rest
        (if (getHeader h k).isSome then setHeader h k ["[redacted]"] else h)

/-- Go `strings.Join` with separator `","`, used for header values. -/
def joinComma : List String → String
  | [] => ""
  | [v] => v
  | v :: rest => v ++ "," ++ joinComma rest

/-- One rendered header line per entry, `name: v1,v2` followed by the given
line terminator, in collection order. -/
def headerLines (term : String) (h : Header) : String :=
  match h with
  | [] => ""
  | (k, v) :: rest => k ++ ": " ++ joinComma v ++ term ++ headerLines term rest

/-- The `headers` template helper of `parseTemplate`: renders the redacted
header dump and returns the final state of the callers header collection.
The Go code discards the pre-mutation clone (`_, red := redactedHeaders(h)`),
so the callers collection is left in its mutated state. -/
def headersHelper (level : DetailLevel) (h : Header) : String × Header :=
  let red := applyRedactions (redactHeaders level) h
  (headerLines "\n" red, red)

/-- The body contents `httputil.DumpRequest` would see: the current reader
contents if a fresh body is attached, otherwise nothing.  `DumpRequest`
restores the body it drains, so the read is non-destructive. -/
def peekBody (r : Request) : String :=
  match r.body with
  | some s => if s.consumed then "" else s.contents
  | none => ""

/-- Modelled from Go `httputil.DumpRequest(r, true)`: wire-format request
text built from the given (already redacted) header collection, the request
line, the Host header and the body. -/
def dumpRequest (r : Request) (redHdr : Header) : String :=
  r.method ++ " " ++ r.path ++ " HTTP/1.1\r\n" ++
    "Host: " ++ r.host ++ "\r\n" ++ headerLines "\r\n" redHdr ++ "\r\n" ++
    peekBody r

/-- The `dump` template helper of `parseTemplate`: redacts a copy of the
headers, dumps the request in wire format, and restores the original header
collection afterwards (`r.Header = orig`), so the callers collection is
returned unchanged. -/
def dumpHelper (level : DetailLevel) (r : Request) : String × Header :=
  (dumpRequest r (applyRedactions (redactHeaders level) r.header), r.header)

/-- The `with .requestid` block of the minimal templates: a bracketed id
followed by a space when the id is non-empty, nothing otherwise. -/
def requestIdTag (id : String) : String :=
  if id = "" then "" else "[" ++ id ++ "] "

/-- `minimalRequestTemplateDef` rendered: the one-line request summary. -/
def minimalRequestLine (r : Request) (id : String) : String :=
  "  (request) " ++ requestIdTag id ++
    r.host ++ " " ++ r.method ++ " " ++ r.path ++ "\n"

/-- The request template of each level rendered against a request, giving
the output text and the final state of the headers of the request
(the `headers` helper mutates it; the `dump` helper restores it).  The
`none` level has a nil template and renders nothing. -/
def renderRequest (level : DetailLevel) (r : Request) (id : String) :
    String × Header :=
  match level with
  | NoneLevel => ("", r.header)
  | MinimalLevel => (minimalRequestLine r id, r.header)
  | NormalLevel =>
      let rendered := headersHelper NormalLevel r.header
      (minimalRequestLine r id ++ rendered.1 ++ "\n", rendered.2)
  | VerboseLevel =>
      let rendered := dumpHelper VerboseLevel r
      (minimalRequestLine r id ++ "---------- BEGIN REQUEST ----------\n" ++
        rendered.1 ++ "\n----------  END  REQUEST ----------\n", rendered.2)
  | DebugLevel =>
      let rendered := dumpHelper DebugLevel r
      (minimalRequestLine r id ++ "---------- BEGIN REQUEST ----------\n" ++
        rendered.1 ++ "\n----------  END  REQUEST ----------\n", rendered.2)

/-- The observable outcome of `coreLogger.logRequest`: the request as the
downstream consumer receives it (body replaced by a fresh reader, headers
possibly mutated by the template helpers), the bytes written to the output
sink, and the body bytes the logger itself drained (none when the body was
nil or the level is `none`). -/
structure LogRequestResult where
  req : Request
  out : String
  captured : Option String
deriving DecidableEq, Repr

/-- `coreLogger.logRequest` of the source: at `none` (or the nil template)
return immediately; otherwise drain the body once, close it, replace it
with a fresh replayable reader, and execute the request template over the
re-bodied request. -/
def logRequest (level : DetailLevel) (r : Request) (id : String) :
    LogRequestResult :=
  match level with
  | NoneLevel => ⟨r, "", none⟩
  | _ =>
      match r.body with
      | none =>
          let rendered := renderRequest level r id
          ⟨{ r with header := rendered.2 }, rendered.1, none⟩
      | some stream =>
          let content := (readAll stream).1
          let fresh : Request := { r with body := some ⟨content, false⟩ }
          let rendered := renderRequest level fresh id
          ⟨{ fresh with header := rendered.2 }, rendered.1, some content⟩

/-- Modelled from Go `http.StatusText`, restricted to the codes exercised
here; unknown codes map to the empty string as in the stdlib. -/
def statusText (code : Nat) : String :=
  if code = 200 then "OK"
  else if code = 202 then "Accepted"
  else if code = 208 then "Already Reported"
  else if code = 400 then "Bad Request"
  else if code = 404 then "Not Found"
  else if code = 405 then "Method Not Allowed"
  else if code = 415 then "Unsupported Media Type"
  else if code = 422 then "Unprocessable Entity"
  else if code = 500 then "Internal Server Error"
  else ""

/-- `minimalResponseTemplateDef` rendered: the one-line response summary
(`status` helper embedded as `statusText`). -/
def minimalResponseLine (code : Nat) (id : String) : String :=
  " (response) " ++ requestIdTag id ++
    toString code ++ " " ++ statusText code ++ "\n"

/-- The response template of each level rendered against the recorded
status code, headers and captured body string.  The `statusBad` helper of
the verbose template gates the body on `400 ≤ code`; the debug template
always includes it.  `none` has a nil template and renders nothing. -/
def renderResponse (level : DetailLevel) (code : Nat) (hdr : Header)
    (bodyStr : String) (id : String) : String :=
  match level with
  | NoneLevel => ""
  | MinimalLevel => minimalResponseLine code id
  | NormalLevel =>
      minimalResponseLine code id ++ (headersHelper NormalLevel hdr).1 ++ "\n"
  | VerboseLevel =>
      minimalResponseLine code id ++ "========== BEGIN RESPONSE ==========\n" ++
        (headersHelper VerboseLevel hdr).1 ++ "\n" ++
        (if 400 ≤ code then bodyStr else "") ++
        "\n==========  END  RESPONSE ==========\n"
  | DebugLevel =>
      minimalResponseLine code id ++ "========== BEGIN RESPONSE ==========\n" ++
        (headersHelper DebugLevel hdr).1 ++ "\n" ++ bodyStr ++
        "\n==========  END  RESPONSE ==========\n"

/-- `coreLogger.logResponse` of the source: with a nil template (`none`)
do nothing; otherwise drain and close the response body, execute the
response template over it, and reattach a fresh replayable reader.  The
first component is the sink output (`none` when no render happened). -/
def logResponse (level : DetailLevel) (resp : Response) (id : String) :
    Option String × Response :=
  match level with
  | NoneLevel => (none, resp)
  | _ =>
      let content := (readAll resp.body).1
      (some (renderResponse level resp.statusCode resp.header content id),
        { resp with body := ⟨content, false⟩ })

/-- A real `http.ResponseWriter`, and equally the `httptest` recorder the
handler writes into: accumulated headers, the status code once written, and
the accumulated body bytes. -/
structure Writer where
  header : Header
  code : Option Nat
  body : String
deriving DecidableEq, Repr

/-- The fresh recorder `httptest.NewRecorder()` hands the downstream
handler. -/
def newRecorder : Writer := ⟨[], none, ""⟩

/-- The `Code` field of the recorder: 200 until `WriteHeader` is called. -/
def recorderCode (rec : Writer) : Nat := rec.code.getD 200

/-- The `for k, v := range resp.Header { w.Header()[k] = v }` loop of
`responseLogger`: copy every recorded header entry onto the real sink. -/
def copyAll (src : Header) (dst : Header) : Header :=
  match src with
  | [] => dst
  | (k, v) :: rest => copyAll rest (setHeader dst k v)

/-- The observable steps of the deferred `responseLogger` closure, in the
order the code performs them. -/
inductive FlushEvent where
  | copyHeaders (h : Header)
  | writeStatus (code : Nat)
  | writeBody (b : String)
  | renderResponse (out : String)
deriving DecidableEq, Repr

/-- The deferred closure returned by `responseLogger` (evolved variant):
read the recorded body, copy the recorded headers onto the real writer,
write the recorded status code, write the recorded body bytes, and only
then render the response template (which at any non-`none` level appends
one message to the sink).  Returns the final real writer and the step
trace. -/
def responseLoggerFlush (level : DetailLevel) (rec : Writer) (w : Writer)
    (id : String) : Writer × List FlushEvent :=
  let body := rec.body
  let w1 : Writer := { w with header := copyAll rec.header w.header }
  let w2 : Writer := { w1 with code := some (recorderCode rec) }
  let w3 : Writer := { w2 with body := w2.body ++ body }
  let rendered :=
    logResponse level ⟨recorderCode rec, rec.header, ⟨rec.body, false⟩⟩ id
  (w3,
    [FlushEvent.copyHeaders rec.header,
     FlushEvent.writeStatus (recorderCode rec),
     FlushEvent.writeBody body] ++
      (match rendered.1 with
       | some out => [FlushEvent.renderResponse out]
       | none => []))

/-- What the wrapped middleware invocation observably produced: the final
state of the real response writer, the bytes written to the log output
sink, and the request the downstream handler was invoked with. -/
structure HandlerResult where
  writer : Writer
  sinkOut : String
  reqSeen : Request
deriving DecidableEq, Repr

/-- Total sink output of a flush trace: the rendered response messages. -/
def flushSinkOut (events : List FlushEvent) : String :=
  match events with
  | [] => ""
  | FlushEvent.renderResponse out :: rest => out ++ flushSinkOut rest
  | _ :: rest => flushSinkOut rest

/-- The `Handler` wrapper of the evolved variant (`Wrap` in the oldest
one): at `none` invoke the downstream handler directly on the real writer
and original request, writing nothing to the sink; at every other level
render the request, run the downstream handler against a fresh recorder,
and flush the recording through `responseLoggerFlush`.  The downstream
handler is an arbitrary state transformer on the writer it is handed. -/
def Handler (level : DetailLevel) (r : Request) (w : Writer)
    (downstream : Request → Writer → Writer) (id : String) : HandlerResult :=
  match level with
  | NoneLevel => ⟨downstream r w, "", r⟩
  | _ =>
      let lr := logRequest level r id
      let rec1 := downstream lr.req newRecorder
      let flushed := responseLoggerFlush level rec1 w id
      ⟨flushed.1, lr.out ++ flushSinkOut flushed.2, lr.req⟩

/-- `RoundTripLogger.RoundTrip` of the source: render the request (which
re-bodies it in place), invoke the wrapped transport on it, and on error
return that error at once; on success render the response and return it
with a replayable body.  The second component is the request-side sink
output, the third the response-side sink output (`none` when no
response-side render was attempted). -/
def RoundTrip (level : DetailLevel)
    (inner : Request → Except String Response) (r : Request) (id : String) :
    Except String Response × String × Option String :=
  let lr := logRequest level r id
  match inner lr.req with
  | Except.error e => (Except.error e, lr.out, none)
  | Except.ok resp =>
      let logged := logResponse level resp id
      (Except.ok logged.2, lr.out, logged.1)

/-- How one serve of the legacy `responseLogger` closure ends: either the
handler returns normally with the final writer and sink output, or the
process is terminated by `log.Fatalf` (which exits after writing the given
diagnostic line). -/
inductive ServeOutcome where
  | completed (w : Writer) (out : String)
  | exited (diag : String)
deriving DecidableEq, Repr

/-- The deferred closure of the legacy `responseLogger` (the mid-evolution
variant and the oldest `logging.go`): `body, err := ioutil.ReadAll(resp.Body)`
followed by `l.Log.Fatalf("Error reading body: %v", err)` when the read
fails — `log.Fatalf` prints the diagnostic and calls `os.Exit(1)`, so on
that branch delivery and rendering never happen and the process dies.  On a
successful read it delivers the recording and renders, as the evolved
variant does.  The read outcome is passed explicitly. -/
def responseLoggerFlushLegacy (level : DetailLevel)
    (readResult : Except String String) (rec : Writer) (w : Writer)
    (id : String) : ServeOutcome :=
  match readResult with
  | Except.error e => ServeOutcome.exited ("Error reading body: " ++ e)
  | Except.ok body =>
      let w1 : Writer := { w with header := copyAll rec.header w.header }
      let w2 : Writer := { w1 with code := some (recorderCode rec) }
      let w3 : Writer := { w2 with body := w2.body ++ body }
      ServeOutcome.completed w3
        (renderResponse level (recorderCode rec) rec.header body id)

/-- `matchAny` of the source helpers: whether any option equals `t`. -/
def matchAny (t : String) (options : List String) : Bool :=
  options.any (fun opt => opt = t)

/-- Split a character list on a separator character (Go `strings.Split`). -/
def splitOnChar (c : Char) : List Char → List (List Char)
  | [] => [[]]
  | x :: xs =>
      match splitOnChar c xs with
      | [] => [[x]]
      | g :: gs => if x = c then [] :: g :: gs else (x :: g) :: gs

/-- Optional whitespace as `mime.ParseMediaType` strips it. -/
def isOWS (c : Char) : Bool := c = ' ' || c = '\t'

/-- Trim surrounding whitespace from a character list. -/
def trimOWS (l : List Char) : List Char :=
  ((l.dropWhile isOWS).reverse.dropWhile isOWS).reverse

/-- Modelled from Go `mime.ParseMediaType`: the media type is the part
before any `;` parameter section, surrounding whitespace stripped and
lowercased; an empty result is a parse error. -/
def parseMediaType (part : List Char) : Option String :=
  let t := (trimOWS (part.takeWhile (fun c => c ≠ ';'))).map Char.toLower
  if t.isEmpty then none else some ⟨t⟩

/-- `hasContentType` of the source helpers: an absent Content-Type counts
as `application/octet-stream`; otherwise split the header on commas and
accept when any part parses to one of the wanted media types. -/
def hasContentType (h : Header) (mimetypes : List String) : Bool :=
  let ct := headerGet h "Content-Type"
  if ct = "" then matchAny "application/octet-stream" mimetypes
  else
    (splitOnChar ',' ct.data).any fun p =>
      match parseMediaType p with
      | some mt => matchAny mt mimetypes
      | none => false

/-- The outcome of `json.NewDecoder(r.Body).Decode(req)` on the level
payload: a decode error, or a successful decode carrying the level field
when the JSON object named one (`none` when the field was absent, in which
case the pre-populated default survives). -/
inductive DecodeResult where
  | failure
  | success (levelField : Option String)
deriving DecidableEq, Repr

/-- What `handleLevelChange` observably did: the HTTP status written, the
error-message body (empty when none was written), the logger level after
the call, and the `Allow` / `Accept` headers it set. -/
structure LevelChangeOutcome where
  status : Nat
  message : String
  level : DetailLevel
  allow : Option String
  accept : Option String
deriving DecidableEq, Repr

/-- The literal usage-hint message of the 422 branches of the source. -/
def usageHint : String :=
  "expect JSON body like: \x7b\"level\":\"none|minimal|normal|verbose|debug\"\x7d"

/-- `handleLevelChange` of the source: reject non-PUT (just advertising
`Allow: PUT`, which ends as an implicit 200), reject a non-JSON content
type with 415, pre-populate the decode target with the current level name,
reject a decode failure or an unknown level name with 422 and the usage
hint, answer 208 leaving the level alone when the named level is current,
and otherwise adopt the new level with 202. -/
def handleLevelChange (current : DetailLevel) (method : String) (hdr : Header)
    (body : DecodeResult) : LevelChangeOutcome :=
  if method ≠ "PUT" then ⟨200, "", current, some "PUT", none⟩
  else if ¬ hasContentType hdr ["application/json"] then
    ⟨415, statusText 415, current, none, some "application/json"⟩
  else
    match body with
    | DecodeResult.failure => ⟨422, usageHint, current, none, none⟩
    | DecodeResult.success f =>
        match levels (f.getD (LevelText current)) with
        | none => ⟨422, usageHint, current, none, none⟩
        | some newLevel =>
            if newLevel = current then ⟨208, "", current, none, none⟩
            else ⟨202, "", newLevel, none, none⟩

/-- Whether the first character list is an initial segment of the second. -/
def listHasLead : List Char → List Char → Bool
  | [], _ => true
  | _ :: _, [] => false
  | a :: as, b :: bs => a == b && listHasLead as bs

/-- Whether the first character list occurs contiguously inside the
second. -/
def listOccurs (n : List Char) : List Char → Bool
  | [] => listHasLead n []
  | c :: t => listHasLead n (c :: t) || listOccurs n t

/-- Whether `needle` occurs as a contiguous substring of `hay`. -/
def strOccurs (needle hay : String) : Bool :=
  listOccurs needle.data hay.data

theorem listHasLead_append (n b : List Char) :
    listHasLead n (n ++ b) = true := by
  induction n with
  | nil => simp [listHasLead]
  | cons a as ih => simp [listHasLead, ih]

theorem listOccurs_append_left (n x y : List Char)
    (h : listOccurs n y = true) : listOccurs n (x ++ y) = true := by
  induction x with
  | nil => simpa using h
  | cons c cs ih =>
      simp only [List.cons_append, listOccurs, Bool.or_eq_true]
      exact Or.inr ih

theorem listOccurs_self_append (n b : List Char) :
    listOccurs n (n ++ b) = true := by
  cases n with
  | nil =>
      cases b with
      | nil => simp [listOccurs, listHasLead]
      | cons c t => simp [listOccurs, listHasLead]
  | cons a as =>
      simp only [List.cons_append, listOccurs, Bool.or_eq_true]
      exact Or.inl (listHasLead_append (a :: as) b)

theorem strOccurs_of_eq_append (needle hay a b : String)
    (h : hay = a ++ (needle ++ b)) : strOccurs needle hay = true := by
  subst h
  unfold strOccurs
  rw [String.data_append, String.data_append]
  exact listOccurs_append_left _ _ _ (listOccurs_self_append _ _)

/-- A concrete request used to evaluate the code at specific inputs. -/
def sampleRequest : Request :=
  ⟨"example.com", "GET", "/widgets/7", [("Authorization", ["secret123"])], none⟩

/-- A concrete header collection declaring the JSON content type. -/
def jsonHeader : Header := [("Content-Type", ["application/json"])]

/-- C1: evaluating the request rendering of the normal level at a request
carrying an Authorization header shows that the `headers` template helper
leaves the placeholder in the original header collection: the request
passed on to the downstream handler carries `[redacted]` where the caller
sent `secret123`, because the helper discards the pre-mutation clone that
`redactedHeaders` returns instead of restoring it. -/
theorem redaction_mutates_original_headers :
    getHeader sampleRequest.header "Authorization" = some ["secret123"] ∧
    getHeader (logRequest DetailLevel.NormalLevel sampleRequest "").req.header
        "Authorization" = some ["[redacted]"] := by
  decide

/-- C3: the legacy `responseLogger` (the mid-evolution variant and the
oldest `logging.go`) reacts to a failure while reading the captured body
with `log.Fatalf`, which terminates the process instead of returning
normally; nothing is delivered or rendered on that branch. -/
theorem legacy_read_error_exits :
    responseLoggerFlushLegacy DetailLevel.NormalLevel
        (Except.error "read failure") newRecorder ⟨[], none, ""⟩ "" =
      ServeOutcome.exited "Error reading body: read failure" := by
  rfl

/-- C6: at level `none` the wrapper invokes the downstream handler directly
on the original request and the real response writer, and writes zero
bytes to the output sink. -/
theorem none_level_passthrough (r : Request) (w : Writer)
    (downstream : Request → Writer → Writer) (id : String) :
    Handler DetailLevel.NoneLevel r w downstream id =
      ⟨downstream r w, "", r⟩ := by
  rfl

/-- C7: when the wrapped transport fails, `RoundTrip` propagates exactly
that error, and neither renders a response template nor captures a
response body (the response-side sink output is absent). -/
theorem roundTrip_error_propagation (level : DetailLevel) (r : Request)
    (id : String) (inner : Request → Except String Response) (e : String)
    (h : inner (logRequest level r id).req = Except.error e) :
    RoundTrip level inner r id =
      (Except.error e, (logRequest level r id).out, none) := by
  simp [RoundTrip, h]

/-- C7 witness: a transport that always fails at a concrete level and
request. -/
theorem roundTrip_error_propagation_witness :
    RoundTrip DetailLevel.MinimalLevel
        (fun _ => Except.error "connection refused") sampleRequest "" =
      (Except.error "connection refused",
        (logRequest DetailLevel.MinimalLevel sampleRequest "").out, none) :=
  roundTrip_error_propagation DetailLevel.MinimalLevel sampleRequest ""
    (fun _ => Except.error "connection refused") "connection refused" rfl

/-- C9: at any non-`none` level, the logger drains a fresh non-empty
request body completely (`captured` holds the whole payload), and hands
the downstream handler a request whose body is a fresh unconsumed reader
over the same payload, so a downstream read also yields the whole
payload. -/
theorem request_body_read_twice (level : DetailLevel) (r : Request)
    (id bs : String) (hlevel : level ≠ DetailLevel.NoneLevel)
    (hbody : r.body = some ⟨bs, false⟩) (hnonempty : bs ≠ "") :
    (logRequest level r id).captured = some bs ∧
    (logRequest level r id).req.body = some ⟨bs, false⟩ ∧
    (readAll ⟨bs, false⟩).1 = bs := by
  cases level with
  | NoneLevel => exact absurd rfl hlevel
  | MinimalLevel => simp [logRequest, hbody, readAll]
  | NormalLevel => simp [logRequest, hbody, readAll]
  | VerboseLevel => simp [logRequest, hbody, readAll]
  | DebugLevel => simp [logRequest, hbody, readAll]

/-- C9 witness: a concrete POST body is drained once and replayable. -/
theorem request_body_read_twice_witness :
    (logRequest DetailLevel.NormalLevel
        ⟨"example.com", "POST", "/w", [], some ⟨"hello body", false⟩⟩
        "").captured = some "hello body" ∧
    (logRequest DetailLevel.NormalLevel
        ⟨"example.com", "POST", "/w", [], some ⟨"hello body", false⟩⟩
        "").req.body = some ⟨"hello body", false⟩ ∧
    (readAll ⟨"hello body", false⟩).1 = "hello body" :=
  request_body_read_twice DetailLevel.NormalLevel
    ⟨"example.com", "POST", "/w", [], some ⟨"hello body", false⟩⟩ ""
    "hello body" (by decide) rfl (by decide)

/-- C10: a well-typed PUT whose valid JSON body omits the level field is
decoded into the pre-populated target naming the current level, so the
handler answers 208 and leaves the level unchanged. -/
theorem empty_json_body_reports_current (current : DetailLevel)
    (hdr : Header) (hct : hasContentType hdr ["application/json"] = true) :
    handleLevelChange current "PUT" hdr (DecodeResult.success none) =
      ⟨208, "", current, none, none⟩ := by
  have hlv : levels (LevelText current) = some current := by
    cases current <;> rfl
  simp [handleLevelChange, hct, hlv]

/-- C10 witness: the empty JSON object at a concrete current level. -/
theorem empty_json_body_reports_current_witness :
    handleLevelChange DetailLevel.VerboseLevel "PUT" jsonHeader
        (DecodeResult.success none) =
      ⟨208, "", DetailLevel.VerboseLevel, none, none⟩ :=
  empty_json_body_reports_current DetailLevel.VerboseLevel jsonHeader
    (by decide)

/-- C5: the level-control set endpoint, for every PUT request: a non-JSON
content type yields 415 with the level unchanged; a decode failure or an
unrecognized level name yields 422 with the literal usage hint and the
level unchanged; naming the current level yields 208 and no change; naming
a different valid level yields 202 and adopts it. -/
theorem handleLevelChange_branches (current : DetailLevel) (hdr : Header) :
    (hasContentType hdr ["application/json"] = false →
      ∀ dec : DecodeResult,
        handleLevelChange current "PUT" hdr dec =
          ⟨415, statusText 415, current, none, some "application/json"⟩) ∧
    (hasContentType hdr ["application/json"] = true →
      handleLevelChange current "PUT" hdr DecodeResult.failure =
          ⟨422, usageHint, current, none, none⟩ ∧
      (∀ s : String, levels s = none →
        handleLevelChange current "PUT" hdr (DecodeResult.success (some s)) =
          ⟨422, usageHint, current, none, none⟩) ∧
      (∀ s : String, levels s = some current →
        handleLevelChange current "PUT" hdr (DecodeResult.success (some s)) =
          ⟨208, "", current, none, none⟩) ∧
      (∀ (s : String) (l : DetailLevel), levels s = some l → l ≠ current →
        handleLevelChange current "PUT" hdr (DecodeResult.success (some s)) =
          ⟨202, "", l, none, none⟩)) := by
  constructor
  · intro hct dec
    cases dec <;> simp [handleLevelChange, hct]
  · intro hct
    refine ⟨by simp [handleLevelChange, hct], ?_, ?_, ?_⟩
    · intro s hs
      simp [handleLevelChange, hct, hs]
    · intro s hs
      simp [handleLevelChange, hct, hs]
    · intro s l hs hne
      simp [handleLevelChange, hct, hs, hne]

/-- C5 witness: switching from `none` to `debug` through the endpoint at a
concrete input yields 202 and adopts the new level. -/
theorem handleLevelChange_branches_witness :
    handleLevelChange DetailLevel.NoneLevel "PUT" jsonHeader
        (DecodeResult.success (some "debug")) =
      ⟨202, "", DetailLevel.DebugLevel, none, none⟩ :=
  ((handleLevelChange_branches DetailLevel.NoneLevel jsonHeader).2
      (by decide)).2.2.2 "debug" DetailLevel.DebugLevel rfl (by decide)

/-- The key list of a header collection, in order. -/
def headerKeys (h : Header) : List String :=
  match h with
  | [] => []
  | (k, _) :: rest => k :: headerKeys rest

theorem getHeader_setHeader_self (h : Header) (k : String) (v : List String) :
    getHeader (setHeader h k v) k = some v := by
  induction h with
  | nil => simp [setHeader, getHeader]
  | cons p rest ih =>
      obtain ⟨k0, v0⟩ := p
      by_cases hk : k0 = k
      · simp [setHeader, getHeader, hk]
      · simp [setHeader, getHeader, hk, ih]

theorem getHeader_setHeader_ne (h : Header) (k k' : String)
    (v : List String) (hk : k ≠ k') :
    getHeader (setHeader h k v) k' = getHeader h k' := by
  induction h with
  | nil => simp [setHeader, getHeader, hk]
  | cons p rest ih =>
      obtain ⟨k0, v0⟩ := p
      by_cases h0 : k0 = k
      · subst h0
        simp [setHeader, getHeader, hk]
      · simp [setHeader, getHeader, h0, ih]

theorem getHeader_copyAll_of_not_mem (src dst : Header) (k : String)
    (hk : k ∉ headerKeys src) :
    getHeader (copyAll src dst) k = getHeader dst k := by
  induction src generalizing dst with
  | nil => simp [copyAll]
  | cons p rest ih =>
      obtain ⟨k0, v0⟩ := p
      simp only [headerKeys, List.mem_cons, not_or] at hk
      rw [copyAll, ih _ hk.2, getHeader_setHeader_ne _ _ _ _ (fun hc => hk.1 hc.symm)]

theorem getHeader_copyAll_of_mem (src dst : Header) (k : String)
    (v : List String) (hnodup : (headerKeys src).Nodup)
    (hget : getHeader src k = some v) :
    getHeader (copyAll src dst) k = some v := by
  induction src generalizing dst with
  | nil => simp [getHeader] at hget
  | cons p rest ih =>
      obtain ⟨k0, v0⟩ := p
      simp only [headerKeys, List.nodup_cons] at hnodup
      by_cases hk : k0 = k
      · subst hk
        simp [getHeader] at hget
        subst hget
        rw [copyAll, getHeader_copyAll_of_not_mem _ _ _ hnodup.1,
          getHeader_setHeader_self]
      · simp only [getHeader, if_neg hk] at hget
        rw [copyAll]
        exact ih _ hnodup.2 hget

/-- C2: at any non-`none` level, the deferred response flush delivers to
the real writer exactly what the downstream handler wrote into the
recorder — every recorded header entry, the recorded status code, and the
recorded body bytes appended verbatim — and the response-template render
is the last step of the trace, strictly after all delivery steps. -/
theorem response_delivered_verbatim (level : DetailLevel) (rec w : Writer)
    (id : String) (hlevel : level ≠ DetailLevel.NoneLevel)
    (hnodup : (headerKeys rec.header).Nodup) :
    (∀ k v, getHeader rec.header k = some v →
        getHeader (responseLoggerFlush level rec w id).1.header k = some v) ∧
    (responseLoggerFlush level rec w id).1.code = some (recorderCode rec) ∧
    (responseLoggerFlush level rec w id).1.body = w.body ++ rec.body ∧
    (∃ out, (responseLoggerFlush level rec w id).2 =
        [FlushEvent.copyHeaders rec.header,
         FlushEvent.writeStatus (recorderCode rec),
         FlushEvent.writeBody rec.body,
         FlushEvent.renderResponse out]) := by
  refine ⟨?_, ?_, ?_, ?_⟩
  · intro k v hget
    simp only [responseLoggerFlush]
    exact getHeader_copyAll_of_mem _ _ _ _ hnodup hget
  · simp [responseLoggerFlush]
  · simp [responseLoggerFlush]
  · cases level with
    | NoneLevel => exact absurd rfl hlevel
    | MinimalLevel => exact ⟨_, rfl⟩
    | NormalLevel => exact ⟨_, rfl⟩
    | VerboseLevel => exact ⟨_, rfl⟩
    | DebugLevel => exact ⟨_, rfl⟩

/-- C2 witness: a concrete recorded response is forwarded verbatim before
being rendered. -/
theorem response_delivered_verbatim_witness :
    getHeader (responseLoggerFlush DetailLevel.NormalLevel
        ⟨[("X-Test", ["1"])], some 404, "resp body"⟩ ⟨[], none, ""⟩ "").1.header
        "X-Test" = some ["1"] ∧
    (responseLoggerFlush DetailLevel.NormalLevel
        ⟨[("X-Test", ["1"])], some 404, "resp body"⟩ ⟨[], none, ""⟩ "").1.code =
      some 404 ∧
    (responseLoggerFlush DetailLevel.NormalLevel
        ⟨[("X-Test", ["1"])], some 404, "resp body"⟩ ⟨[], none, ""⟩ "").1.body =
      "" ++ "resp body" := by
  have h := response_delivered_verbatim DetailLevel.NormalLevel
    ⟨[("X-Test", ["1"])], some 404, "resp body"⟩ ⟨[], none, ""⟩ ""
    (by decide) (by decide)
  exact ⟨h.1 "X-Test" ["1"] (by decide), h.2.1, h.2.2.1⟩

theorem getHeader_append_mid (pre post : Header) (k : String)
    (x : List String) (hk : k ∉ headerKeys pre) :
    getHeader (pre ++ (k, x) :: post) k = some x := by
  induction pre with
  | nil => simp [getHeader]
  | cons p rest ih =>
      obtain ⟨k0, v0⟩ := p
      simp only [headerKeys, List.mem_cons, not_or] at hk
      have hne : k0 ≠ k := fun hc => hk.1 hc.symm
      simp only [List.cons_append, getHeader, List.append_eq, if_neg hne]
      exact ih hk.2

theorem setHeader_append_mid (pre post : Header) (k : String)
    (x y : List String) (hk : k ∉ headerKeys pre) :
    setHeader (pre ++ (k, x) :: post) k y = pre ++ (k, y) :: post := by
  induction pre with
  | nil => simp [setHeader]
  | cons p rest ih =>
      obtain ⟨k0, v0⟩ := p
      simp only [headerKeys, List.mem_cons, not_or] at hk
      have hne : k0 ≠ k := fun hc => hk.1 hc.symm
      simp only [List.cons_append, setHeader, List.append_eq, if_neg hne]
      exact congrArg _ (ih hk.2)

/-- The redaction pass over a collection whose Authorization entry sits
after a prefix free of that name replaces exactly that entry with the
placeholder, independently of its original value. -/
theorem applyRedactions_auth (pre post : Header) (v : List String)
    (hk : "Authorization" ∉ headerKeys pre) :
    applyRedactions RedactedHeaders (pre ++ ("Authorization", v) :: post) =
      applyRedactions ["Cookie"]
        (pre ++ ("Authorization", ["[redacted]"]) :: post) := by
  show applyRedactions ("Authorization" :: ["Cookie"]) _ = _
  rw [applyRedactions, getHeader_append_mid _ _ _ _ hk]
  simp only [Option.isSome_some, if_pos]
  rw [setHeader_append_mid _ _ _ _ _ hk]

theorem headerLines_append (term : String) (xs ys : Header) :
    headerLines term (xs ++ ys) =
      headerLines term xs ++ headerLines term ys := by
  induction xs with
  | nil =>
      show headerLines term ys = "" ++ headerLines term ys
      rw [String.empty_append]
  | cons p rest ih =>
      obtain ⟨k, v⟩ := p
      simp only [List.cons_append, headerLines, List.append_eq, ih,
        String.append_assoc]

/-- C8: redaction in the rendered output.  At levels minimal, normal and
verbose the rendered request text is independent of the value of a carried
Authorization header (so the original value cannot reach the output: the
value slot is the fixed placeholder), while at level debug the original
value appears verbatim in the rendered dump.  In addition, at the concrete
`sampleRequest` carrying `Authorization: secret123`, the rendered output of
the three redacting levels does not contain `secret123`, the normal-level
output does contain the `[redacted]` placeholder, and the debug-level
output contains `secret123` verbatim. -/
theorem redacted_header_never_rendered (host method path id v1 v2 : String)
    (pre post : Header) (body : Option BodyStream)
    (hpre : "Authorization" ∉ headerKeys pre) :
    let r1 : Request :=
      ⟨host, method, path, pre ++ ("Authorization", [v1]) :: post, body⟩
    let r2 : Request :=
      ⟨host, method, path, pre ++ ("Authorization", [v2]) :: post, body⟩
    ((renderRequest DetailLevel.MinimalLevel r1 id).1 =
        (renderRequest DetailLevel.MinimalLevel r2 id).1 ∧
      (renderRequest DetailLevel.NormalLevel r1 id).1 =
        (renderRequest DetailLevel.NormalLevel r2 id).1 ∧
      (renderRequest DetailLevel.VerboseLevel r1 id).1 =
        (renderRequest DetailLevel.VerboseLevel r2 id).1) ∧
    strOccurs v1 (renderRequest DetailLevel.DebugLevel r1 id).1 = true ∧
    (strOccurs "secret123"
        (renderRequest DetailLevel.MinimalLevel sampleRequest "").1 = false ∧
      strOccurs "secret123"
        (renderRequest DetailLevel.NormalLevel sampleRequest "").1 = false ∧
      strOccurs "secret123"
        (renderRequest DetailLevel.VerboseLevel sampleRequest "").1 = false ∧
      strOccurs "[redacted]"
        (renderRequest DetailLevel.NormalLevel sampleRequest "").1 = true ∧
      strOccurs "secret123"
        (renderRequest DetailLevel.DebugLevel sampleRequest "").1 = true) := by
  intro r1 r2
  refine ⟨⟨rfl, ?_, ?_⟩, ?_,
    by decide, by decide, by decide, by decide, by decide⟩
  · simp only [renderRequest, headersHelper, redactHeaders]
    rw [applyRedactions_auth _ _ _ hpre, applyRedactions_auth _ _ _ hpre]
    rfl
  · simp only [renderRequest, dumpHelper, dumpRequest, redactHeaders,
      peekBody]
    rw [applyRedactions_auth _ _ _ hpre, applyRedactions_auth _ _ _ hpre]
    rfl
  · refine strOccurs_of_eq_append v1 _
      (minimalRequestLine r1 id ++ "---------- BEGIN REQUEST ----------\n" ++
        (method ++ " " ++ path ++ " HTTP/1.1\r\n" ++ "Host: " ++ host ++
          "\r\n" ++ headerLines "\r\n" pre ++ ("Authorization" ++ ": ")))
      ("\r\n" ++ headerLines "\r\n" post ++ "\r\n" ++ peekBody r1 ++
        "\n----------  END  REQUEST ----------\n") ?_
    simp only [renderRequest, dumpHelper, dumpRequest, redactHeaders,
      applyRedactions]
    rw [headerLines_append]
    simp only [headerLines, joinComma, String.append_assoc]

/-- C8 witness: the noninterference clauses at a concrete request pair. -/
theorem redacted_header_never_rendered_witness :
    (renderRequest DetailLevel.NormalLevel
        ⟨"h", "GET", "/p", [("Authorization", ["s3cr3t"])], none⟩ "").1 =
      (renderRequest DetailLevel.NormalLevel
        ⟨"h", "GET", "/p", [("Authorization", ["other"])], none⟩ "").1 ∧
    strOccurs "s3cr3t" (renderRequest DetailLevel.DebugLevel
        ⟨"h", "GET", "/p", [("Authorization", ["s3cr3t"])], none⟩ "").1 =
      true := by
  have h := redacted_header_never_rendered "h" "GET" "/p" "" "s3cr3t" "other"
    [] [] none (by decide)
  exact ⟨h.1.2.1, h.2.1⟩

end Middleware
